import Mathlib

/-!
# tvheadend poll wrapper (`src/tvhpoll.c`): embedding and verified properties

The C file wraps two kernel readiness facilities chosen at compile time
(`ENABLE_EPOLL`, `ENABLE_KQUEUE`).  Each `#if` branch of every function is
embedded as its own Lean function (`…_epoll`, `…_kqueue`).

Modelling conventions

* C arrays are index maps `Nat → α`; the input arrays of `tvhpoll_add` and
  `tvhpoll_rem` are the list of their first `num` cells.
* Bit masks (`events`, `flags`, `fflags`) are the `Nat` holding the bit
  pattern; signed quantities are `Int`; every narrowing C conversion is an
  explicit wrap (`wrapU`, `wrapS`).
* The kernel is a black box: an arbitrary state type `σ` with arbitrary
  transition functions for the system calls the file issues.
* Constants that come from headers which are not part of the translated file
  (`tvhpoll.h`, `<sys/epoll.h>`, `<sys/event.h>`) and the pointer width of the
  target are fields of `Consts`.
* `realloc` may fail (`Consts.realloc_ok`); the file never tests its result, so
  a failed call leaves `ev = NULL`, a block of no records.  The byte count
  `n * EV_SIZE` is computed in `size_t` and wraps.  Memory faults are not
  modelled: reading or writing a cell outside the block has no effect on the
  control flow of the model.
-/

namespace Tvhpoll

/-! ## Machine integers -/

/-- Conversion to an unsigned integer type of `w` bits. -/
def wrapU (w : Nat) (x : Int) : Nat := (x % ((2 ^ w : Nat) : Int)).toNat

/-- Conversion to a signed two's complement integer type of `w` bits. -/
def wrapS (w : Nat) (x : Int) : Int :=
  (x + ((2 ^ (w - 1) : Nat) : Int)) % ((2 ^ w : Nat) : Int) - ((2 ^ (w - 1) : Nat) : Int)

/-- Largest value of C `int`. -/
def INT_MAX : Int := 2147483647

/-- Conversion `size_t → int`, as at the calls `tvhpoll_alloc(tp, num)`,
`epoll_wait(.., num, ..)` and `kevent(.., num, ..)`: a value that `int` can
represent is unchanged, any other wraps modulo `2 ^ 32`. -/
def size_to_int (n : Nat) : Int := if n ≤ 2147483647 then (n : Int) else wrapS 32 n

/-! ## Constants and platform parameters -/

/-- Header constants used by `tvhpoll.c`, and the parameters of the target:
the widths of `void *` and `size_t`, the sizes of the kernel records, and the
outcome of `realloc`. -/
structure Consts where
  TVHPOLL_IN : Nat
  TVHPOLL_OUT : Nat
  TVHPOLL_PRI : Nat
  TVHPOLL_ERR : Nat
  TVHPOLL_HUP : Nat
  EPOLLIN : Nat
  EPOLLOUT : Nat
  EPOLLPRI : Nat
  EPOLLERR : Nat
  EPOLLHUP : Nat
  EPOLL_CTL_ADD : Int
  EPOLL_CTL_DEL : Int
  EVFILT_READ : Int
  EVFILT_WRITE : Int
  EV_ADD : Nat
  EV_DELETE : Nat
  EV_EOF : Nat
  /-- Width in bits of `void *` / `uintptr_t`. -/
  ptrBits : Nat
  /-- Whether a pointer narrower than 64 bits is sign-extended by the cast
  `(uint64_t)ptr` (GCC) or zero-extended (Clang). -/
  ptrSignExtend : Bool
  /-- Width in bits of `size_t`. -/
  sizeBits : Nat
  /-- The value of `sizeof(struct epoll_event)`. -/
  sizeof_epoll_event : Nat
  /-- The value of `sizeof(struct kevent)`. -/
  sizeof_kevent : Nat
  /-- Whether `realloc` to that many bytes succeeds. -/
  realloc_ok : Nat → Bool

/-- The values of `tvhpoll.h`, Linux `<sys/epoll.h>` and BSD `<sys/event.h>`
on a target with 64-bit pointers and `size_t`, where every `realloc`
succeeds. -/
def stdConsts : Consts where
  TVHPOLL_IN := 0x01
  TVHPOLL_OUT := 0x02
  TVHPOLL_PRI := 0x04
  TVHPOLL_ERR := 0x08
  TVHPOLL_HUP := 0x10
  EPOLLIN := 0x001
  EPOLLPRI := 0x002
  EPOLLOUT := 0x004
  EPOLLERR := 0x008
  EPOLLHUP := 0x010
  EPOLL_CTL_ADD := 1
  EPOLL_CTL_DEL := 2
  EVFILT_READ := -1
  EVFILT_WRITE := -2
  EV_ADD := 0x0001
  EV_DELETE := 0x0002
  EV_EOF := 0x8000
  ptrBits := 64
  ptrSignExtend := false
  sizeBits := 64
  sizeof_epoll_event := 12
  sizeof_kevent := 32
  realloc_ok := fun _ => true

/-- The same constants on a target whose pointers and `size_t` are 32 bits wide. -/
def ilp32Consts : Consts :=
  { stdConsts with ptrBits := 32, sizeBits := 32, sizeof_kevent := 20 }

/-! ## Records -/

/-- The neutral event `tvhpoll_event_t`: `fd`, `events`, `data.u64`. -/
structure tvhpoll_event where
  fd : Int
  events : Nat
  data_u64 : Nat
deriving DecidableEq

/-- Linux `struct epoll_event`: `events`, `data.u64`. -/
structure epoll_event where
  events : Nat
  data_u64 : Nat
deriving DecidableEq

/-- BSD `struct kevent`. -/
structure kevent_t where
  ident : Nat
  filter : Int
  flags : Nat
  fflags : Nat
  data : Int
  udata : Nat
deriving DecidableEq

/-- BSD `struct timespec`. -/
structure timespec where
  tv_sec : Int
  tv_nsec : Int
deriving DecidableEq

/-- A heap block of records: `cap` is the number of whole records the block has
room for (0 for `NULL`), `cell` its contents. -/
structure Buf (ρ : Type) where
  cap : Int
  cell : Nat → ρ

/-- The `struct tvhpoll` with scratch records of type `ρ`. -/
structure tvhpoll (ρ : Type) where
  fd : Int
  ev : Buf ρ
  nev : Int

/-! ## Flag translation, epoll -/

/-- Body of the `tvhpoll_add` loop (epoll): the `struct epoll_event` built for
one neutral event. -/
def epoll_event_of (c : Consts) (e : tvhpoll_event) : epoll_event :=
  let ev : epoll_event := { events := 0, data_u64 := 0 }
  let ev := { ev with data_u64 := e.data_u64 }
  let ev := if e.events &&& c.TVHPOLL_IN ≠ 0 then { ev with events := ev.events ||| c.EPOLLIN } else ev
  let ev := if e.events &&& c.TVHPOLL_OUT ≠ 0 then { ev with events := ev.events ||| c.EPOLLOUT } else ev
  let ev := if e.events &&& c.TVHPOLL_PRI ≠ 0 then { ev with events := ev.events ||| c.EPOLLPRI } else ev
  let ev := if e.events &&& c.TVHPOLL_ERR ≠ 0 then { ev with events := ev.events ||| c.EPOLLERR } else ev
  let ev := if e.events &&& c.TVHPOLL_HUP ≠ 0 then { ev with events := ev.events ||| c.EPOLLHUP } else ev
  ev

/-- Body of the `tvhpoll_wait` loop (epoll): what slot `evs[i]` becomes from
the ready record `tp->ev[i]`.  The `fd` field of the slot is not assigned. -/
def tvhpoll_event_of_epoll (c : Consts) (r : epoll_event) (slot : tvhpoll_event) : tvhpoll_event :=
  let o := { slot with data_u64 := r.data_u64 }
  let o := { o with events := 0 }
  let o := if r.events &&& c.EPOLLIN ≠ 0 then { o with events := o.events ||| c.TVHPOLL_IN } else o
  let o := if r.events &&& c.EPOLLOUT ≠ 0 then { o with events := o.events ||| c.TVHPOLL_OUT } else o
  let o := if r.events &&& c.EPOLLERR ≠ 0 then { o with events := o.events ||| c.TVHPOLL_ERR } else o
  let o := if r.events &&& c.EPOLLPRI ≠ 0 then { o with events := o.events ||| c.TVHPOLL_PRI } else o
  let o := if r.events &&& c.EPOLLHUP ≠ 0 then { o with events := o.events ||| c.TVHPOLL_HUP } else o
  o

/-- A subset of the five neutral flags, by membership. -/
structure FlagSet where
  readable : Bool
  writable : Bool
  priority : Bool
  error : Bool
  hangup : Bool

/-- The `events` mask of a set of neutral flags. -/
def FlagSet.mask (c : Consts) (S : FlagSet) : Nat :=
  (if S.readable then c.TVHPOLL_IN else 0) |||
  (if S.writable then c.TVHPOLL_OUT else 0) |||
  (if S.priority then c.TVHPOLL_PRI else 0) |||
  (if S.error then c.TVHPOLL_ERR else 0) |||
  (if S.hangup then c.TVHPOLL_HUP else 0)

/-- Five masks are single bits at pairwise distinct positions. -/
def DistinctBits (a b c d e : Nat) : Prop :=
  ∃ i j k l m : Nat, a = 2 ^ i ∧ b = 2 ^ j ∧ c = 2 ^ k ∧ d = 2 ^ l ∧ e = 2 ^ m ∧
    i ≠ j ∧ i ≠ k ∧ i ≠ l ∧ i ≠ m ∧ j ≠ k ∧ j ≠ l ∧ j ≠ m ∧ k ≠ l ∧ k ≠ m ∧ l ≠ m

/-! ## Flag translation, kqueue -/

/-- The `EV_SET(kevp, a, b, c, d, e, f)` macro of `<sys/event.h>`: each argument is
converted to its field: `ident` is `uintptr_t`, `filter` is `short`, `flags`
is `u_short`, `fflags` is `u_int`, `udata` is `void *`. -/
def EV_SET (c : Consts) (a b cf d e : Int) (f : Nat) : kevent_t :=
  { ident := wrapU c.ptrBits a, filter := wrapS 16 b, flags := wrapU 16 cf,
    fflags := wrapU 32 d, data := e, udata := f }

/-- The cast `(void*)x` of a 64-bit integer. -/
def u64_to_ptr (c : Consts) (x : Nat) : Nat := wrapU c.ptrBits x

/-- The cast `(uint64_t)p` of a pointer. -/
def ptr_to_u64 (c : Consts) (p : Nat) : Nat :=
  wrapU 64 (if c.ptrSignExtend then wrapS c.ptrBits p else p)

/-- Body of the `tvhpoll_add` loop (kqueue): the `struct kevent` stored at
`tp->ev+i`.  The local `fflags` is `uint32_t` and is passed in the `filter`
position of `EV_SET`. -/
def kevent_of (c : Consts) (e : tvhpoll_event) : kevent_t :=
  let fflags : Nat := 0
  let fflags := if e.events &&& c.TVHPOLL_OUT ≠ 0 then fflags ||| wrapU 32 c.EVFILT_WRITE else fflags
  let fflags := if e.events &&& c.TVHPOLL_IN ≠ 0 then fflags ||| wrapU 32 c.EVFILT_READ else fflags
  EV_SET c e.fd fflags c.EV_ADD 0 0 (u64_to_ptr c e.data_u64)

/-- Body of the `tvhpoll_rem` loop (kqueue). -/
def kevent_del_of (c : Consts) (e : tvhpoll_event) : kevent_t :=
  EV_SET c e.fd 0 c.EV_DELETE 0 0 0

/-- Body of the `tvhpoll_wait` loop (kqueue): what slot `evs[i]` becomes from
the ready record `tp->ev[i]`. -/
def tvhpoll_event_of_kevent (c : Consts) (r : kevent_t) (slot : tvhpoll_event) : tvhpoll_event :=
  let o := { slot with fd := wrapS 32 r.ident }
  let o := { o with events := 0 }
  let o := { o with data_u64 := ptr_to_u64 c r.udata }
  let o := if r.fflags &&& wrapU 32 c.EVFILT_WRITE ≠ 0 then { o with events := o.events ||| c.TVHPOLL_OUT } else o
  let o := if r.fflags &&& wrapU 32 c.EVFILT_READ ≠ 0 then { o with events := o.events ||| c.TVHPOLL_IN } else o
  let o := if r.flags &&& c.EV_EOF ≠ 0 then { o with events := o.events ||| c.TVHPOLL_HUP } else o
  o

/-- The timeout pointer of `tvhpoll_wait` (kqueue), `to` in C: `none` is `NULL`.
The product is computed in `long long`. -/
def kqueue_timeout (ms : Int) : Option timespec :=
  let tmo : Option timespec := none
  if ms ≠ 0 then
    some { tv_sec := ms.tdiv 1000, tv_nsec := wrapS 64 (ms.tmod 1000 * 1000000) }
  else tmo

/-- The timeout argument of `epoll_wait` in `tvhpoll_wait` (epoll): `ms` itself. -/
def epoll_timeout (ms : Int) : Int := ms

/-! ## The kernel as a black box -/

/-- The epoll system calls.  `epoll_wait` returns the count and the contents
of the `events` buffer after the call. -/
structure EpollKernel (σ : Type) where
  epoll_create : Int → σ → Int × σ
  epoll_ctl : Int → Int → Int → Option epoll_event → σ → Int × σ
  epoll_wait : Int → Buf epoll_event → Int → Int → σ → (Int × (Nat → epoll_event)) × σ

/-- The kqueue system calls.  `kevent` takes `changelist`, `nchanges`,
`eventlist`, `nevents`, `timeout` (`none` for `NULL`) and returns the count and
the contents of `eventlist` after the call. -/
structure KqueueKernel (σ : Type) where
  kqueue : σ → Int × σ
  kevent : Int → Option (Buf kevent_t) → Int → Option (Buf kevent_t) → Int →
    Option timespec → σ → (Int × (Nat → kevent_t)) × σ

/-- Result of an operation that has no output array. -/
structure Ret (ρ σ : Type) where
  ret : Int
  tp : tvhpoll ρ
  world : σ

/-- Result of `tvhpoll_wait`. -/
structure WaitRet (ρ σ : Type) where
  ret : Int
  tp : tvhpoll ρ
  evs : Nat → tvhpoll_event
  world : σ

/-! ## Operations -/

/-- The macro `EV_SIZE`, epoll branch: `sizeof(struct epoll_event)`. -/
def EV_SIZE_epoll (c : Consts) : Nat := c.sizeof_epoll_event

/-- The macro `EV_SIZE`, kqueue branch: `sizeof(struct kevent)`. -/
def EV_SIZE_kqueue (c : Consts) : Nat := c.sizeof_kevent

/-- The libc `realloc(ptr, size)` on a block of records of `evSize` bytes each:
on success the block has room for `size / evSize` whole records, on failure the
result is `NULL`. -/
def realloc {ρ : Type} (c : Consts) (evSize : Nat) (b : Buf ρ) (size : Nat) : Buf ρ :=
  if c.realloc_ok size then { cap := ((size / evSize : Nat) : Int), cell := b.cell }
  else { cap := 0, cell := b.cell }

/-- The C `tvhpoll_alloc`, with `evSize` the value of `EV_SIZE`: the product
`n * EV_SIZE` is a `size_t`, and the result of `realloc` is stored unchecked. -/
def tvhpoll_alloc {ρ : Type} (c : Consts) (evSize : Nat) (tp : tvhpoll ρ) (n : Int) : tvhpoll ρ :=
  if n > tp.nev then
    { tp with ev := realloc c evSize tp.ev (wrapU c.sizeBits (n * evSize)), nev := n }
  else tp

/-- The block `calloc(1, sizeof(tvhpoll_t))` with `fd` assigned: `ev` is `NULL`
(no cells; `junk` stands for what unallocated cells read as), `nev` is 0. -/
def tvhpoll_fresh {ρ : Type} (junk : Nat → ρ) (fd : Int) : tvhpoll ρ :=
  { fd := fd, ev := { cap := 0, cell := junk }, nev := 0 }

/-- The C `tvhpoll_create`, epoll branch; `none` is the `NULL` return. -/
def tvhpoll_create_epoll {σ : Type} (c : Consts) (K : EpollKernel σ) (junk : Nat → epoll_event)
    (n : Nat) (s : σ) : Option (tvhpoll epoll_event) × σ :=
  let r := K.epoll_create (size_to_int n) s
  if r.1 < 0 then (none, r.2)
  else (some (tvhpoll_alloc c (EV_SIZE_epoll c) (tvhpoll_fresh junk r.1) (size_to_int n)), r.2)

/-- The C `tvhpoll_create`, kqueue branch; `none` is the `NULL` return. -/
def tvhpoll_create_kqueue {σ : Type} (c : Consts) (K : KqueueKernel σ) (junk : Nat → kevent_t)
    (n : Nat) (s : σ) : Option (tvhpoll kevent_t) × σ :=
  let r := K.kqueue s
  if r.1 < 0 then (none, r.2)
  else (some (tvhpoll_alloc c (EV_SIZE_kqueue c) (tvhpoll_fresh junk r.1) (size_to_int n)), r.2)

/-- The loop of `tvhpoll_add` (epoll) over `evs[0..num)`. -/
def add_loop_epoll {σ : Type} (c : Consts) (K : EpollKernel σ) (tp : tvhpoll epoll_event) :
    List tvhpoll_event → σ → Int × σ
  | [], s => (0, s)
  | e :: rest, s =>
    let r := K.epoll_ctl tp.fd c.EPOLL_CTL_ADD e.fd (some (epoll_event_of c e)) s
    if r.1 ≠ 0 then (-1, r.2) else add_loop_epoll c K tp rest r.2

/-- The C `tvhpoll_add`, epoll branch. -/
def tvhpoll_add_epoll {σ : Type} (c : Consts) (K : EpollKernel σ) (tp : tvhpoll epoll_event)
    (evs : List tvhpoll_event) (s : σ) : Ret epoll_event σ :=
  let r := add_loop_epoll c K tp evs s
  { ret := r.1, tp := tp, world := r.2 }

/-- Stores `rs` at `cell[i], cell[i+1], …`. -/
def store_from {ρ : Type} (cell : Nat → ρ) (i : Nat) : List ρ → Nat → ρ
  | [] => cell
  | r :: rs => store_from (Function.update cell i r) (i + 1) rs

/-- The C `tvhpoll_add`, kqueue branch. -/
def tvhpoll_add_kqueue {σ : Type} (c : Consts) (K : KqueueKernel σ) (tp : tvhpoll kevent_t)
    (evs : List tvhpoll_event) (s : σ) : Ret kevent_t σ :=
  let tp := tvhpoll_alloc c (EV_SIZE_kqueue c) tp (size_to_int evs.length)
  let tp := { tp with ev := { tp.ev with cell := store_from tp.ev.cell 0 (evs.map (kevent_of c)) } }
  let r := K.kevent tp.fd (some tp.ev) (size_to_int evs.length) none 0 none s
  { ret := r.1.1, tp := tp, world := r.2 }

/-- The loop of `tvhpoll_rem` (epoll): the result of `epoll_ctl` is dropped. -/
def rem_loop_epoll {σ : Type} (c : Consts) (K : EpollKernel σ) (tp : tvhpoll epoll_event) :
    List tvhpoll_event → σ → σ
  | [], s => s
  | e :: rest, s => rem_loop_epoll c K tp rest (K.epoll_ctl tp.fd c.EPOLL_CTL_DEL e.fd none s).2

/-- The C `tvhpoll_rem`, epoll branch. -/
def tvhpoll_rem_epoll {σ : Type} (c : Consts) (K : EpollKernel σ) (tp : tvhpoll epoll_event)
    (evs : List tvhpoll_event) (s : σ) : Ret epoll_event σ :=
  let tp := tvhpoll_alloc c (EV_SIZE_epoll c) tp (size_to_int evs.length)
  let s := rem_loop_epoll c K tp evs s
  { ret := 0, tp := tp, world := s }

/-- The C `tvhpoll_rem`, kqueue branch: the result of `kevent` is dropped. -/
def tvhpoll_rem_kqueue {σ : Type} (c : Consts) (K : KqueueKernel σ) (tp : tvhpoll kevent_t)
    (evs : List tvhpoll_event) (s : σ) : Ret kevent_t σ :=
  let tp := tvhpoll_alloc c (EV_SIZE_kqueue c) tp (size_to_int evs.length)
  let tp := { tp with ev := { tp.ev with cell := store_from tp.ev.cell 0 (evs.map (kevent_del_of c)) } }
  let r := K.kevent tp.fd (some tp.ev) (size_to_int evs.length) none 0 none s
  { ret := 0, tp := tp, world := r.2 }

/-- The loop `for (i = 0; i < nfds; i++) evs[i] = …` of `tvhpoll_wait`, with
`conv` the loop body; it runs `nfds` times, not at all for `nfds ≤ 0`. -/
def wait_loop {ρ : Type} (conv : ρ → tvhpoll_event → tvhpoll_event) (ev : Nat → ρ)
    (nfds : Int) (evs : Nat → tvhpoll_event) : Nat → tvhpoll_event :=
  (List.range nfds.toNat).foldl (fun out i => Function.update out i (conv (ev i) (out i))) evs

/-- The C `tvhpoll_wait`, epoll branch. -/
def tvhpoll_wait_epoll {σ : Type} (c : Consts) (K : EpollKernel σ) (tp : tvhpoll epoll_event)
    (evs : Nat → tvhpoll_event) (num : Nat) (ms : Int) (s : σ) : WaitRet epoll_event σ :=
  let tp := tvhpoll_alloc c (EV_SIZE_epoll c) tp (size_to_int num)
  let r := K.epoll_wait tp.fd tp.ev (size_to_int num) (epoll_timeout ms) s
  let nfds := r.1.1
  let tp := { tp with ev := { tp.ev with cell := r.1.2 } }
  { ret := nfds, tp := tp, evs := wait_loop (tvhpoll_event_of_epoll c) tp.ev.cell nfds evs,
    world := r.2 }

/-- The C `tvhpoll_wait`, kqueue branch. -/
def tvhpoll_wait_kqueue {σ : Type} (c : Consts) (K : KqueueKernel σ) (tp : tvhpoll kevent_t)
    (evs : Nat → tvhpoll_event) (num : Nat) (ms : Int) (s : σ) : WaitRet kevent_t σ :=
  let tp := tvhpoll_alloc c (EV_SIZE_kqueue c) tp (size_to_int num)
  let tmo := kqueue_timeout ms
  let r := K.kevent tp.fd none 0 (some tp.ev) (size_to_int num) tmo s
  let nfds := r.1.1
  let tp := { tp with ev := { tp.ev with cell := r.1.2 } }
  { ret := nfds, tp := tp, evs := wait_loop (tvhpoll_event_of_kevent c) tp.ev.cell nfds evs,
    world := r.2 }

/-! ## Kernels that record the calls they receive -/

/-- One epoll system call with its arguments; a buffer argument is recorded
by its capacity. -/
inductive EpollCall where
  | create (size : Int)
  | ctl (epfd op fd : Int) (ev : Option epoll_event)
  | wait (epfd cap maxevents timeout : Int)
deriving DecidableEq

/-- An epoll kernel whose state is the list of calls made so far; the return
value of a call is `res` of that list, the buffer contents after a wait are
`recs` of it. -/
def epollScript (res : List EpollCall → Int) (recs : List EpollCall → Nat → epoll_event) :
    EpollKernel (List EpollCall) where
  epoll_create size log := (res (log ++ [.create size]), log ++ [.create size])
  epoll_ctl epfd op fd ev log := (res (log ++ [.ctl epfd op fd ev]), log ++ [.ctl epfd op fd ev])
  epoll_wait epfd buf maxevents timeout log :=
    ((res (log ++ [.wait epfd buf.cap maxevents timeout]),
      recs (log ++ [.wait epfd buf.cap maxevents timeout])),
     log ++ [.wait epfd buf.cap maxevents timeout])

/-- The first `n` cells of a buffer. -/
def Buf.firstCells {ρ : Type} (b : Buf ρ) (n : Int) : List ρ :=
  (List.range n.toNat).map b.cell

/-- One kqueue system call with its arguments: the change list is recorded by
its first `nchanges` records, the event list by its capacity. -/
inductive KqueueCall where
  | kqueue
  | kevent (kq : Int) (changes : Option (List kevent_t)) (nchanges : Int)
      (eventcap : Option Int) (nevents : Int) (timeout : Option timespec)
deriving DecidableEq

/-- The record of one `kevent` call. -/
def KqueueCall.ofArgs (kq : Int) (changelist : Option (Buf kevent_t)) (nchanges : Int)
    (eventlist : Option (Buf kevent_t)) (nevents : Int) (timeout : Option timespec) : KqueueCall :=
  .kevent kq (changelist.map (fun b => b.firstCells nchanges)) nchanges
    (eventlist.map (fun b => b.cap)) nevents timeout

/-- A kqueue kernel whose state is the list of calls made so far. -/
def kqueueScript (res : List KqueueCall → Int) (recs : List KqueueCall → Nat → kevent_t) :
    KqueueKernel (List KqueueCall) where
  kqueue log := (res (log ++ [.kqueue]), log ++ [.kqueue])
  kevent kq cl nc el ne tmo log :=
    ((res (log ++ [KqueueCall.ofArgs kq cl nc el ne tmo]),
      recs (log ++ [KqueueCall.ofArgs kq cl nc el ne tmo])),
     log ++ [KqueueCall.ofArgs kq cl nc el ne tmo])

/-- The registration calls `tvhpoll_add` (epoll) makes for `evs` when none fails. -/
def addCalls (c : Consts) (epfd : Int) (evs : List tvhpoll_event) : List EpollCall :=
  evs.map (fun e => EpollCall.ctl epfd c.EPOLL_CTL_ADD e.fd (some (epoll_event_of c e)))

/-- One `EPOLL_CTL_DEL` call per element of `evs`, in order. -/
def delCalls (c : Consts) (epfd : Int) (evs : List tvhpoll_event) : List EpollCall :=
  evs.map (fun e => EpollCall.ctl epfd c.EPOLL_CTL_DEL e.fd none)

/-- A kqueue kernel that reports one ready record, `r`, from every call. -/
def oneReadyKqueue (r : kevent_t) : KqueueKernel (List KqueueCall) :=
  kqueueScript (fun _ => 1) (fun _ _ => r)

/-- An epoll kernel that reports one ready record, `r`, from every call. -/
def oneReadyEpoll (r : epoll_event) : EpollKernel (List EpollCall) :=
  epollScript (fun _ => 1) (fun _ _ => r)

/-- An output array whose every slot holds descriptor 99, no flags and tag 0. -/
def staleSlots : Nat → tvhpoll_event := fun _ => { fd := 99, events := 0, data_u64 := 0 }

/-- What the blocking `epoll_wait` call of `tvhpoll_wait` returns: the call is
made after `tvhpoll_alloc`, on the poller's descriptor and scratch buffer. -/
def blocking_call_epoll {σ : Type} (c : Consts) (K : EpollKernel σ) (tp : tvhpoll epoll_event)
    (num : Nat) (ms : Int) (s : σ) : (Int × (Nat → epoll_event)) × σ :=
  K.epoll_wait (tvhpoll_alloc c (EV_SIZE_epoll c) tp (size_to_int num)).fd (tvhpoll_alloc c (EV_SIZE_epoll c) tp (size_to_int num)).ev
    (size_to_int num) ms s

/-- What the blocking `kevent` call of `tvhpoll_wait` returns. -/
def blocking_call_kqueue {σ : Type} (c : Consts) (K : KqueueKernel σ) (tp : tvhpoll kevent_t)
    (num : Nat) (ms : Int) (s : σ) : (Int × (Nat → kevent_t)) × σ :=
  K.kevent (tvhpoll_alloc c (EV_SIZE_kqueue c) tp (size_to_int num)).fd none 0
    (some (tvhpoll_alloc c (EV_SIZE_kqueue c) tp (size_to_int num)).ev) (size_to_int num) (kqueue_timeout ms) s

/-- Kernel results in which exactly the second call fails. -/
def failSecondCall (log : List EpollCall) : Int := if log.length = 2 then -1 else 0

/-- Kernel results for a create followed by other calls: the first call returns
descriptor 3, every later call returns 0. -/
def createThenIdle (log : List EpollCall) : Int := if log.length = 1 then 3 else 0

/-- The call `tvhpoll_create(n)` followed, when it returns a poller, by
`tvhpoll_wait(tp, evs, num, ms)` on that poller (epoll). -/
def create_then_wait_epoll {σ : Type} (c : Consts) (K : EpollKernel σ) (junk : Nat → epoll_event)
    (n : Nat) (evs : Nat → tvhpoll_event) (num : Nat) (ms : Int) (s : σ) :
    Option (WaitRet epoll_event σ) :=
  match tvhpoll_create_epoll c K junk n s with
  | (none, _) => none
  | (some tp, s1) => some (tvhpoll_wait_epoll c K tp evs num ms s1)

/-! ## Auxiliary lemmas -/

theorem two_pow_and_two_pow_of_ne {i j : Nat} (h : i ≠ j) : 2 ^ i &&& 2 ^ j = 0 := by
  apply Nat.eq_of_testBit_eq
  intro k
  simp only [Nat.testBit_and, Nat.testBit_two_pow, Nat.zero_testBit]
  by_cases h1 : i = k <;> by_cases h2 : j = k <;> simp [h1, h2]
  omega

theorem or_and_right (x y z : Nat) : (x ||| y) &&& z = (x &&& z) ||| (y &&& z) := by
  rw [Nat.and_comm, Nat.and_or_distrib_left, Nat.and_comm z x, Nat.and_comm z y]

theorem lor_left_comm (x y z : Nat) : x ||| (y ||| z) = y ||| (x ||| z) := by
  rw [← Nat.or_assoc, Nat.or_comm x y, Nat.or_assoc]

theorem size_to_int_eq (n : Nat) (h : (n : Int) ≤ INT_MAX) : size_to_int n = n := by
  unfold size_to_int
  unfold INT_MAX at h
  rw [if_pos (by omega)]

theorem store_from_apply {ρ : Type} (rs : List ρ) (cell : Nat → ρ) (i j : Nat) :
    store_from cell i rs j = if i ≤ j then (rs[j - i]?).getD (cell j) else cell j := by
  induction rs generalizing cell i with
  | nil => simp [store_from]
  | cons r rs ih =>
    simp only [store_from]
    rw [ih]
    by_cases hj : j = i
    · subst hj
      simp
    · rw [Function.update_noteq hj]
      by_cases h1 : i + 1 ≤ j
      · have h2 : i ≤ j := by omega
        have h3 : j - i = (j - (i + 1)) + 1 := by omega
        rw [if_pos h1, if_pos h2, h3, List.getElem?_cons_succ]
      · have h2 : ¬ i ≤ j := by omega
        rw [if_neg h1, if_neg h2]

theorem firstCells_store_from {ρ : Type} (rs : List ρ) (cell : Nat → ρ) (cap : Int) :
    Buf.firstCells { cap := cap, cell := store_from cell 0 rs } (rs.length : Int) = rs := by
  unfold Buf.firstCells
  apply List.ext_getElem
  · simp
  · intro n h1 h2
    simp [store_from_apply, h2]

theorem wait_loop_nat {ρ : Type} (conv : ρ → tvhpoll_event → tvhpoll_event) (ev : Nat → ρ)
    (evs : Nat → tvhpoll_event) (n i : Nat) :
    (List.range n).foldl (fun out k => Function.update out k (conv (ev k) (out k))) evs i
      = if i < n then conv (ev i) (evs i) else evs i := by
  induction n with
  | zero => simp
  | succ n ih =>
    rw [List.range_succ, List.foldl_append]
    simp only [List.foldl_cons, List.foldl_nil]
    by_cases h : i = n
    · subst h
      simp [ih]
    · rw [Function.update_noteq h, ih]
      have : i < n + 1 ↔ i < n := by omega
      simp [this]

theorem wait_loop_apply {ρ : Type} (conv : ρ → tvhpoll_event → tvhpoll_event) (ev : Nat → ρ)
    (nfds : Int) (evs : Nat → tvhpoll_event) (i : Nat) :
    wait_loop conv ev nfds evs i = if (i : Int) < nfds then conv (ev i) (evs i) else evs i := by
  unfold wait_loop
  rw [wait_loop_nat]
  have : i < nfds.toNat ↔ (i : Int) < nfds := by omega
  simp [this]

theorem wait_loop_nonpos {ρ : Type} (conv : ρ → tvhpoll_event → tvhpoll_event) (ev : Nat → ρ)
    (nfds : Int) (evs : Nat → tvhpoll_event) (h : nfds ≤ 0) :
    wait_loop conv ev nfds evs = evs := by
  funext i
  rw [wait_loop_apply]
  have : ¬ ((i : Int) < nfds) := by omega
  simp [this]

theorem epoll_event_of_data (c : Consts) (e : tvhpoll_event) :
    (epoll_event_of c e).data_u64 = e.data_u64 := by
  unfold epoll_event_of
  simp only []
  repeat' split
  all_goals rfl

theorem tvhpoll_event_of_epoll_data (c : Consts) (r : epoll_event) (slot : tvhpoll_event) :
    (tvhpoll_event_of_epoll c r slot).data_u64 = r.data_u64 := by
  unfold tvhpoll_event_of_epoll
  simp only []
  repeat' split
  all_goals rfl

theorem tvhpoll_event_of_epoll_fd (c : Consts) (r : epoll_event) (slot : tvhpoll_event) :
    (tvhpoll_event_of_epoll c r slot).fd = slot.fd := by
  unfold tvhpoll_event_of_epoll
  simp only []
  repeat' split
  all_goals rfl

theorem kevent_of_udata (c : Consts) (e : tvhpoll_event) :
    (kevent_of c e).udata = u64_to_ptr c e.data_u64 := rfl

theorem kevent_of_ident (c : Consts) (e : tvhpoll_event) :
    (kevent_of c e).ident = wrapU c.ptrBits e.fd := rfl

theorem tvhpoll_event_of_kevent_data (c : Consts) (r : kevent_t) (slot : tvhpoll_event) :
    (tvhpoll_event_of_kevent c r slot).data_u64 = ptr_to_u64 c r.udata := by
  unfold tvhpoll_event_of_kevent
  simp only []
  repeat' split
  all_goals rfl

theorem tvhpoll_event_of_kevent_fd (c : Consts) (r : kevent_t) (slot : tvhpoll_event) :
    (tvhpoll_event_of_kevent c r slot).fd = wrapS 32 r.ident := by
  unfold tvhpoll_event_of_kevent
  simp only []
  repeat' split
  all_goals rfl

theorem ptr_roundtrip_64 (c : Consts) (h : c.ptrBits = 64) (T : Nat) (hT : T < 2 ^ 64) :
    ptr_to_u64 c (u64_to_ptr c T) = T := by
  unfold ptr_to_u64 u64_to_ptr wrapU wrapS
  rw [h]
  norm_num at hT ⊢
  split <;> omega

theorem u64_to_ptr_64 (c : Consts) (h : c.ptrBits = 64) (T : Nat) (hT : T < 2 ^ 64) :
    u64_to_ptr c T = T := by
  unfold u64_to_ptr wrapU
  rw [h]
  norm_num at hT ⊢
  omega

theorem fd_roundtrip (w : Nat) (hw : 32 ≤ w) (fd : Int) (h1 : -2147483648 ≤ fd) (h2 : fd ≤ 2147483647) :
    wrapS 32 (wrapU w fd) = fd := by
  unfold wrapS wrapU
  push_cast
  have hpos : (0 : Int) < 2 ^ w := by positivity
  have hnn : 0 ≤ fd % 2 ^ w := Int.emod_nonneg _ (ne_of_gt hpos)
  rw [Int.toNat_of_nonneg hnn]
  have hd : (4294967296 : Int) ∣ 2 ^ w := by
    have := pow_dvd_pow (2 : Int) hw
    norm_num at this
    exact this
  have : (fd % 2 ^ w + 2147483648) % 4294967296 = (fd + 2147483648) % 4294967296 := by
    rw [Int.add_emod, Int.emod_emod_of_dvd _ hd, ← Int.add_emod]
  rw [this]
  omega

theorem epollScript_ctl (res : List EpollCall → Int) (recs : List EpollCall → Nat → epoll_event)
    (epfd op fd : Int) (ev : Option epoll_event) (log : List EpollCall) :
    (epollScript res recs).epoll_ctl epfd op fd ev log
      = (res (log ++ [.ctl epfd op fd ev]), log ++ [.ctl epfd op fd ev]) := rfl

theorem rem_loop_script (c : Consts) (res : List EpollCall → Int)
    (recs : List EpollCall → Nat → epoll_event) (tp : tvhpoll epoll_event)
    (evs : List tvhpoll_event) (log : List EpollCall) :
    rem_loop_epoll c (epollScript res recs) tp evs log = log ++ delCalls c tp.fd evs := by
  induction evs generalizing log with
  | nil => simp [rem_loop_epoll, delCalls]
  | cons e rest ih =>
    simp only [rem_loop_epoll, epollScript_ctl]
    rw [ih]
    simp [delCalls]

theorem add_loop_ret (σ : Type) (c : Consts) (K : EpollKernel σ) (tp : tvhpoll epoll_event)
    (evs : List tvhpoll_event) (s : σ) :
    (add_loop_epoll c K tp evs s).1 = 0 ∨ (add_loop_epoll c K tp evs s).1 = -1 := by
  induction evs generalizing s with
  | nil => simp [add_loop_epoll]
  | cons e rest ih =>
    simp only [add_loop_epoll]
    split
    · right; rfl
    · exact ih _

theorem add_loop_script_fail (c : Consts) (res : List EpollCall → Int)
    (recs : List EpollCall → Nat → epoll_event) (tp : tvhpoll epoll_event)
    (evs : List tvhpoll_event) (log : List EpollCall) (k : Nat) (hk : k < evs.length)
    (hok : ∀ i, i < k → res (log ++ addCalls c tp.fd (evs.take (i + 1))) = 0)
    (hfail : res (log ++ addCalls c tp.fd (evs.take (k + 1))) ≠ 0) :
    add_loop_epoll c (epollScript res recs) tp evs log
      = (-1, log ++ addCalls c tp.fd (evs.take (k + 1))) := by
  induction evs generalizing log k with
  | nil => simp at hk
  | cons e rest ih =>
    simp only [add_loop_epoll, epollScript_ctl]
    cases k with
    | zero =>
      have : res (log ++ [EpollCall.ctl tp.fd c.EPOLL_CTL_ADD e.fd (some (epoll_event_of c e))]) ≠ 0 := by
        simpa [addCalls] using hfail
      simp [this, addCalls]
    | succ k =>
      have h0 : res (log ++ [EpollCall.ctl tp.fd c.EPOLL_CTL_ADD e.fd (some (epoll_event_of c e))]) = 0 := by
        simpa [addCalls] using hok 0 (by omega)
      simp only [h0, ne_eq, not_true_eq_false, if_false]
      rw [ih (log ++ [EpollCall.ctl tp.fd c.EPOLL_CTL_ADD e.fd (some (epoll_event_of c e))]) k
        (by simpa using hk)
        (fun i hi => by simpa [addCalls] using hok (i + 1) (by omega))
        (by simpa [addCalls] using hfail)]
      simp [addCalls]

theorem add_loop_script_ok (c : Consts) (res : List EpollCall → Int)
    (recs : List EpollCall → Nat → epoll_event) (tp : tvhpoll epoll_event)
    (evs : List tvhpoll_event) (log : List EpollCall)
    (hok : ∀ i, i < evs.length → res (log ++ addCalls c tp.fd (evs.take (i + 1))) = 0) :
    add_loop_epoll c (epollScript res recs) tp evs log = (0, log ++ addCalls c tp.fd evs) := by
  induction evs generalizing log with
  | nil => simp [add_loop_epoll, addCalls]
  | cons e rest ih =>
    simp only [add_loop_epoll, epollScript_ctl]
    have h0 : res (log ++ [EpollCall.ctl tp.fd c.EPOLL_CTL_ADD e.fd (some (epoll_event_of c e))]) = 0 := by
      simpa [addCalls] using hok 0 (by simp)
    simp only [h0, ne_eq, not_true_eq_false, if_false]
    rw [ih (log ++ [EpollCall.ctl tp.fd c.EPOLL_CTL_ADD e.fd (some (epoll_event_of c e))])
      (fun i hi => by simpa [addCalls] using hok (i + 1) (by simpa using hi))]
    simp [addCalls]


theorem tvhpoll_alloc_fd {ρ : Type} (c : Consts) (sz : Nat) (tp : tvhpoll ρ) (n : Int) :
    (tvhpoll_alloc c sz tp n).fd = tp.fd := by
  unfold tvhpoll_alloc
  split <;> rfl

theorem tvhpoll_alloc_cell {ρ : Type} (c : Consts) (sz : Nat) (tp : tvhpoll ρ) (n : Int) :
    (tvhpoll_alloc c sz tp n).ev.cell = tp.ev.cell := by
  unfold tvhpoll_alloc
  split
  · unfold realloc
    split <;> rfl
  · rfl

theorem tvhpoll_alloc_nev {ρ : Type} (c : Consts) (sz : Nat) (tp : tvhpoll ρ) (n : Int) :
    (tvhpoll_alloc c sz tp n).nev = max tp.nev n := by
  unfold tvhpoll_alloc
  split
  · simp only []
    omega
  · omega

theorem wrapU_of_lt (w : Nat) (x : Int) (h0 : 0 ≤ x) (h1 : x < 2 ^ w) : wrapU w x = x.toNat := by
  unfold wrapU
  push_cast
  rw [Int.emod_eq_of_lt h0 h1]

theorem realloc_cap {ρ : Type} (c : Consts) (sz : Nat) (b : Buf ρ) (n : Int)
    (hsz : 0 < sz) (h0 : 0 ≤ n) (hfit : n * sz < 2 ^ c.sizeBits)
    (hok : c.realloc_ok (n * sz).toNat = true) :
    (realloc c sz b (wrapU c.sizeBits (n * sz))).cap = n := by
  have hnn : (0 : Int) ≤ n * sz := Int.mul_nonneg h0 (Int.ofNat_nonneg sz)
  rw [wrapU_of_lt _ _ hnn hfit]
  unfold realloc
  rw [if_pos hok]
  simp only []
  obtain ⟨k, rfl⟩ := Int.eq_ofNat_of_zero_le h0
  have : ((k : Int) * (sz : Int)).toNat = k * sz := by
    rw [← Int.ofNat_mul]
    exact Int.toNat_ofNat _
  rw [this, Nat.mul_div_cancel _ hsz]

theorem tvhpoll_alloc_cap_ge {ρ : Type} (c : Consts) (sz : Nat) (tp : tvhpoll ρ) (n : Int)
    (hsz : 0 < sz) (hinv : tp.nev ≤ tp.ev.cap)
    (hgrow : tp.nev < n → 0 ≤ n ∧ n * sz < 2 ^ c.sizeBits ∧ c.realloc_ok (n * sz).toNat = true) :
    (tvhpoll_alloc c sz tp n).nev ≤ (tvhpoll_alloc c sz tp n).ev.cap ∧
    n ≤ (tvhpoll_alloc c sz tp n).ev.cap := by
  unfold tvhpoll_alloc
  split
  · rename_i h
    obtain ⟨h0, hfit, hok⟩ := hgrow h
    simp only []
    rw [realloc_cap c sz tp.ev n hsz h0 hfit hok]
    exact ⟨le_refl _, le_refl _⟩
  · rename_i h
    exact ⟨hinv, by omega⟩

theorem kqueueScript_kevent (res : List KqueueCall → Int) (recs : List KqueueCall → Nat → kevent_t)
    (kq : Int) (cl : Option (Buf kevent_t)) (nc : Int) (el : Option (Buf kevent_t)) (ne : Int)
    (tmo : Option timespec) (log : List KqueueCall) :
    (kqueueScript res recs).kevent kq cl nc el ne tmo log
      = ((res (log ++ [KqueueCall.ofArgs kq cl nc el ne tmo]),
          recs (log ++ [KqueueCall.ofArgs kq cl nc el ne tmo])),
         log ++ [KqueueCall.ofArgs kq cl nc el ne tmo]) := rfl

theorem epollScript_wait (res : List EpollCall → Int) (recs : List EpollCall → Nat → epoll_event)
    (epfd : Int) (buf : Buf epoll_event) (maxevents timeout : Int) (log : List EpollCall) :
    (epollScript res recs).epoll_wait epfd buf maxevents timeout log
      = ((res (log ++ [.wait epfd buf.cap maxevents timeout]),
          recs (log ++ [.wait epfd buf.cap maxevents timeout])),
         log ++ [.wait epfd buf.cap maxevents timeout]) := rfl

theorem rem_kqueue_script (c : Consts) (res : List KqueueCall → Int)
    (recs : List KqueueCall → Nat → kevent_t) (tp : tvhpoll kevent_t)
    (evs : List tvhpoll_event) (log : List KqueueCall) (h : (evs.length : Int) ≤ INT_MAX) :
    (tvhpoll_rem_kqueue c (kqueueScript res recs) tp evs log).world
      = log ++ [KqueueCall.kevent tp.fd (some (evs.map (kevent_del_of c))) evs.length none 0 none] := by
  unfold tvhpoll_rem_kqueue
  rw [size_to_int_eq _ h]
  simp only [kqueueScript_kevent, tvhpoll_alloc_fd]
  unfold KqueueCall.ofArgs
  simp only [Option.map_some', Option.map_none']
  have := firstCells_store_from (evs.map (kevent_del_of c))
    (tvhpoll_alloc c (EV_SIZE_kqueue c) tp (evs.length : Int)).ev.cell
    (tvhpoll_alloc c (EV_SIZE_kqueue c) tp (evs.length : Int)).ev.cap
  rw [List.length_map] at this
  rw [this]

theorem add_kqueue_script (c : Consts) (res : List KqueueCall → Int)
    (recs : List KqueueCall → Nat → kevent_t) (tp : tvhpoll kevent_t)
    (evs : List tvhpoll_event) (log : List KqueueCall) (h : (evs.length : Int) ≤ INT_MAX) :
    (tvhpoll_add_kqueue c (kqueueScript res recs) tp evs log).world
      = log ++ [KqueueCall.kevent tp.fd (some (evs.map (kevent_of c))) evs.length none 0 none] := by
  unfold tvhpoll_add_kqueue
  rw [size_to_int_eq _ h]
  simp only [kqueueScript_kevent, tvhpoll_alloc_fd]
  unfold KqueueCall.ofArgs
  simp only [Option.map_some', Option.map_none']
  have := firstCells_store_from (evs.map (kevent_of c))
    (tvhpoll_alloc c (EV_SIZE_kqueue c) tp (evs.length : Int)).ev.cell
    (tvhpoll_alloc c (EV_SIZE_kqueue c) tp (evs.length : Int)).ev.cap
  rw [List.length_map] at this
  rw [this]

theorem wait_epoll_script (c : Consts) (res : List EpollCall → Int)
    (recs : List EpollCall → Nat → epoll_event) (tp : tvhpoll epoll_event)
    (evs : Nat → tvhpoll_event) (num : Nat) (ms : Int) (log : List EpollCall) :
    (tvhpoll_wait_epoll c (epollScript res recs) tp evs num ms log).world
      = log ++ [EpollCall.wait tp.fd (tvhpoll_alloc c (EV_SIZE_epoll c) tp (size_to_int num)).ev.cap
                  (size_to_int num) (epoll_timeout ms)] := by
  unfold tvhpoll_wait_epoll
  simp only [epollScript_wait, tvhpoll_alloc_fd]

theorem wait_kqueue_script (c : Consts) (res : List KqueueCall → Int)
    (recs : List KqueueCall → Nat → kevent_t) (tp : tvhpoll kevent_t)
    (evs : Nat → tvhpoll_event) (num : Nat) (ms : Int) (log : List KqueueCall) :
    (tvhpoll_wait_kqueue c (kqueueScript res recs) tp evs num ms log).world
      = log ++ [KqueueCall.kevent tp.fd none 0 (some (tvhpoll_alloc c (EV_SIZE_kqueue c) tp (size_to_int num)).ev.cap)
                  (size_to_int num) (kqueue_timeout ms)] := by
  unfold tvhpoll_wait_kqueue
  simp only [kqueueScript_kevent, tvhpoll_alloc_fd]
  unfold KqueueCall.ofArgs
  simp only [Option.map_some', Option.map_none']

theorem tvhpoll_event_of_kevent_no_fflags (c : Consts) (r : kevent_t) (slot : tvhpoll_event)
    (h1 : r.fflags = 0) (h2 : r.flags &&& c.EV_EOF = 0) :
    (tvhpoll_event_of_kevent c r slot).events = 0 := by
  simp [tvhpoll_event_of_kevent, h1, h2]


theorem wait_epoll_tp_nev {σ : Type} (c : Consts) (K : EpollKernel σ) (tp : tvhpoll epoll_event)
    (evs : Nat → tvhpoll_event) (num : Nat) (ms : Int) (s : σ) :
    (tvhpoll_wait_epoll c K tp evs num ms s).tp.nev = (tvhpoll_alloc c (EV_SIZE_epoll c) tp (size_to_int num)).nev := by
  rfl

theorem wait_kqueue_tp_nev {σ : Type} (c : Consts) (K : KqueueKernel σ) (tp : tvhpoll kevent_t)
    (evs : Nat → tvhpoll_event) (num : Nat) (ms : Int) (s : σ) :
    (tvhpoll_wait_kqueue c K tp evs num ms s).tp.nev = (tvhpoll_alloc c (EV_SIZE_kqueue c) tp (size_to_int num)).nev := by
  rfl

theorem add_kqueue_tp_nev {σ : Type} (c : Consts) (K : KqueueKernel σ) (tp : tvhpoll kevent_t)
    (evs : List tvhpoll_event) (s : σ) :
    (tvhpoll_add_kqueue c K tp evs s).tp.nev = (tvhpoll_alloc c (EV_SIZE_kqueue c) tp (size_to_int evs.length)).nev := by
  rfl

theorem rem_kqueue_tp_nev {σ : Type} (c : Consts) (K : KqueueKernel σ) (tp : tvhpoll kevent_t)
    (evs : List tvhpoll_event) (s : σ) :
    (tvhpoll_rem_kqueue c K tp evs s).tp.nev = (tvhpoll_alloc c (EV_SIZE_kqueue c) tp (size_to_int evs.length)).nev := by
  rfl

theorem rem_epoll_tp_nev {σ : Type} (c : Consts) (K : EpollKernel σ) (tp : tvhpoll epoll_event)
    (evs : List tvhpoll_event) (s : σ) :
    (tvhpoll_rem_epoll c K tp evs s).tp.nev = (tvhpoll_alloc c (EV_SIZE_epoll c) tp (size_to_int evs.length)).nev := by
  rfl

theorem stdConsts_neutral_bits : DistinctBits stdConsts.TVHPOLL_IN stdConsts.TVHPOLL_OUT
    stdConsts.TVHPOLL_PRI stdConsts.TVHPOLL_ERR stdConsts.TVHPOLL_HUP :=
  ⟨0, 1, 2, 3, 4, by decide⟩

theorem stdConsts_epoll_bits : DistinctBits stdConsts.EPOLLIN stdConsts.EPOLLOUT
    stdConsts.EPOLLPRI stdConsts.EPOLLERR stdConsts.EPOLLHUP :=
  ⟨0, 2, 1, 3, 4, by decide⟩

/-! ## Verified properties -/

/-- C1: on the epoll backend, for every subset `S` of the five neutral flags,
translating `S` to the native mask as `tvhpoll_add` does and translating a ready
record carrying exactly that native mask back as `tvhpoll_wait` does yields
exactly `S`, provided the five neutral flags are single bits at pairwise
distinct positions and so are the five native `EPOLL*` bits. -/
theorem epoll_flags_roundtrip (c : Consts)
    (hT : DistinctBits c.TVHPOLL_IN c.TVHPOLL_OUT c.TVHPOLL_PRI c.TVHPOLL_ERR c.TVHPOLL_HUP)
    (hN : DistinctBits c.EPOLLIN c.EPOLLOUT c.EPOLLPRI c.EPOLLERR c.EPOLLHUP)
    (S : FlagSet) (e : tvhpoll_event) (r : epoll_event) (slot : tvhpoll_event)
    (he : e.events = S.mask c) (hr : r.events = (epoll_event_of c e).events) :
    (tvhpoll_event_of_epoll c r slot).events = S.mask c := by
  obtain ⟨i, j, k, l, m, h1, h2, h3, h4, h5, d1, d2, d3, d4, d5, d6, d7, d8, d9, d10⟩ := hT
  obtain ⟨i', j', k', l', m', g1, g2, g3, g4, g5, f1, f2, f3, f4, f5, f6, f7, f8, f9, f10⟩ := hN
  have z : ∀ n : Nat, 2 ^ n ≠ 0 := fun n => by positivity
  obtain ⟨b1, b2, b3, b4, b5⟩ := S
  cases b1 <;> cases b2 <;> cases b3 <;> cases b4 <;> cases b5 <;>
    simp [tvhpoll_event_of_epoll, epoll_event_of, FlagSet.mask, hr, he, h1, h2, h3, h4, h5,
      g1, g2, g3, g4, g5, or_and_right, two_pow_and_two_pow_of_ne, z,
      d1, d2, d3, d4, d5, d6, d7, d8, d9, d10, f1, f2, f3, f4, f5, f6, f7, f8, f9, f10,
      Ne.symm, Nat.or_assoc, Nat.or_comm, lor_left_comm]

/-- C1 at the header values: `{Readable, Writable, HangUp}` (mask `0x13`) goes to
the native mask `0x15` and comes back as `0x13`. -/
theorem epoll_flags_roundtrip_witness :
    (epoll_event_of stdConsts { fd := 5, events := 0x13, data_u64 := 7 }).events = 0x15 ∧
    (tvhpoll_event_of_epoll stdConsts
      (epoll_event_of stdConsts { fd := 5, events := 0x13, data_u64 := 7 })
      { fd := 0, events := 0, data_u64 := 0 }).events = 0x13 :=
  ⟨by decide,
   epoll_flags_roundtrip stdConsts stdConsts_neutral_bits stdConsts_epoll_bits
    { readable := true, writable := true, priority := false, error := false, hangup := true }
    { fd := 5, events := 0x13, data_u64 := 7 } _ _ (by decide) rfl⟩

/-- C2, as the claim states it, fails on the kqueue path of a target with 32-bit
pointers: registering tag `2 ^ 32` stores user data `0` (the cast `(void*)`
keeps the low 32 bits), and `tvhpoll_wait` reports tag `0` for that
subscription. -/
theorem tag_roundtrip_kqueue_pointer32_counterexample :
    (kevent_of ilp32Consts { fd := 3, events := 1, data_u64 := 4294967296 }).udata = 0 ∧
    ((tvhpoll_wait_kqueue ilp32Consts
        (oneReadyKqueue (kevent_of ilp32Consts { fd := 3, events := 1, data_u64 := 4294967296 }))
        (tvhpoll_fresh (fun _ => kevent_of ilp32Consts { fd := 0, events := 0, data_u64 := 0 }) 9)
        staleSlots 1 1000 []).evs 0).data_u64 = 0 ∧
    (0 : Nat) ≠ 4294967296 := by
  refine ⟨by decide, by decide, by decide⟩

/-- C2 (amended): for every 64-bit tag `T`, on epoll the record `tvhpoll_add`
builds carries `T` and every ready record with user data `T` is reported by
`tvhpoll_wait` at the same index with tag `T`, whatever the flags, the
descriptor, the other records and the kernel; on kqueue the same holds when
pointers are 64 bits wide. -/
theorem tag_roundtrip (c : Consts) (T : Nat) (hT : T < 2 ^ 64) :
    (∀ e : tvhpoll_event, e.data_u64 = T → (epoll_event_of c e).data_u64 = T) ∧
    (∀ (σ : Type) (K : EpollKernel σ) (tp : tvhpoll epoll_event) (evs : Nat → tvhpoll_event)
        (num : Nat) (ms : Int) (s : σ) (i : Nat),
      (i : Int) < (tvhpoll_wait_epoll c K tp evs num ms s).ret →
      ((tvhpoll_wait_epoll c K tp evs num ms s).tp.ev.cell i).data_u64 = T →
      ((tvhpoll_wait_epoll c K tp evs num ms s).evs i).data_u64 = T) ∧
    (c.ptrBits = 64 →
      (∀ e : tvhpoll_event, e.data_u64 = T → (kevent_of c e).udata = T) ∧
      (∀ (σ : Type) (K : KqueueKernel σ) (tp : tvhpoll kevent_t) (evs : Nat → tvhpoll_event)
          (num : Nat) (ms : Int) (s : σ) (i : Nat),
        (i : Int) < (tvhpoll_wait_kqueue c K tp evs num ms s).ret →
        ((tvhpoll_wait_kqueue c K tp evs num ms s).tp.ev.cell i).udata = T →
        ((tvhpoll_wait_kqueue c K tp evs num ms s).evs i).data_u64 = T)) := by
  refine ⟨?_, ?_, ?_⟩
  · intro e he
    rw [epoll_event_of_data, he]
  · intro σ K tp evs num ms s i hi hrec
    simp only [tvhpoll_wait_epoll] at hi hrec ⊢
    rw [wait_loop_apply, if_pos hi, tvhpoll_event_of_epoll_data]
    exact hrec
  · intro h64
    refine ⟨?_, ?_⟩
    · intro e he
      rw [kevent_of_udata, he, u64_to_ptr_64 c h64 T hT]
    · intro σ K tp evs num ms s i hi hrec
      simp only [tvhpoll_wait_kqueue] at hi hrec ⊢
      rw [wait_loop_apply, if_pos hi, tvhpoll_event_of_kevent_data, hrec]
      have := ptr_roundtrip_64 c h64 T hT
      rwa [u64_to_ptr_64 c h64 T hT] at this

/-- C2 (amended) at tag `0xdeadbeefcafe00ff` with 64-bit pointers: the kqueue
subscription carries it, and a kqueue wait that gets that subscription back
reports it. -/
theorem tag_roundtrip_witness :
    (kevent_of stdConsts { fd := 3, events := 1, data_u64 := 0xdeadbeefcafe00ff }).udata
      = 0xdeadbeefcafe00ff ∧
    ((tvhpoll_wait_kqueue stdConsts
        (oneReadyKqueue (kevent_of stdConsts { fd := 3, events := 1, data_u64 := 0xdeadbeefcafe00ff }))
        (tvhpoll_fresh (fun _ => kevent_of stdConsts { fd := 0, events := 0, data_u64 := 0 }) 9)
        staleSlots 1 1000 []).evs 0).data_u64 = 0xdeadbeefcafe00ff :=
  ⟨((tag_roundtrip stdConsts 0xdeadbeefcafe00ff (by decide)).2.2 rfl).1 _ rfl,
   ((tag_roundtrip stdConsts 0xdeadbeefcafe00ff (by decide)).2.2 rfl).2 _ _ _ _ 1 1000 [] 0
      (by decide) (by decide)⟩

/-- C3: `tvhpoll_rem` returns 0 for every poller, every event sequence and every
kernel; on epoll it issues one `EPOLL_CTL_DEL` call per descriptor, in order,
whatever the earlier calls returned; on kqueue it issues one `kevent` call whose
change list holds an `EV_DELETE` record for every descriptor (for a sequence
whose length fits `int`). -/
theorem rem_always_succeeds (c : Consts) :
    (∀ (σ : Type) (K : EpollKernel σ) (tp : tvhpoll epoll_event) (evs : List tvhpoll_event) (s : σ),
      (tvhpoll_rem_epoll c K tp evs s).ret = 0) ∧
    (∀ (σ : Type) (K : KqueueKernel σ) (tp : tvhpoll kevent_t) (evs : List tvhpoll_event) (s : σ),
      (tvhpoll_rem_kqueue c K tp evs s).ret = 0) ∧
    (∀ (res : List EpollCall → Int) (recs : List EpollCall → Nat → epoll_event)
        (tp : tvhpoll epoll_event) (evs : List tvhpoll_event) (log : List EpollCall),
      (tvhpoll_rem_epoll c (epollScript res recs) tp evs log).world
        = log ++ evs.map (fun e => EpollCall.ctl tp.fd c.EPOLL_CTL_DEL e.fd none)) ∧
    (∀ (res : List KqueueCall → Int) (recs : List KqueueCall → Nat → kevent_t)
        (tp : tvhpoll kevent_t) (evs : List tvhpoll_event) (log : List KqueueCall),
      (evs.length : Int) ≤ INT_MAX →
      (tvhpoll_rem_kqueue c (kqueueScript res recs) tp evs log).world
        = log ++ [KqueueCall.kevent tp.fd
            (some (evs.map (fun e => EV_SET c e.fd 0 c.EV_DELETE 0 0 0))) evs.length none 0 none]) := by
  refine ⟨fun _ _ _ _ _ => rfl, fun _ _ _ _ _ => rfl, ?_, ?_⟩
  · intro res recs tp evs log
    unfold tvhpoll_rem_epoll
    simp only []
    rw [rem_loop_script, tvhpoll_alloc_fd]
    rfl
  · intro res recs tp evs log h
    exact rem_kqueue_script c res recs tp evs log h

/-- C3 with a kernel that fails every call (returns -1): removing descriptor 4
twice and the invalid descriptor -1 returns 0, and all three deregistrations
are attempted, on epoll and on kqueue. -/
theorem rem_always_succeeds_witness :
    (tvhpoll_rem_epoll stdConsts (epollScript (fun _ => -1) (fun _ _ => ⟨0, 0⟩))
        (tvhpoll_fresh (fun _ => ⟨0, 0⟩) 9) [⟨4, 1, 0⟩, ⟨4, 1, 0⟩, ⟨-1, 0, 0⟩] []).ret = 0 ∧
    (tvhpoll_rem_epoll stdConsts (epollScript (fun _ => -1) (fun _ _ => ⟨0, 0⟩))
        (tvhpoll_fresh (fun _ => ⟨0, 0⟩) 9) [⟨4, 1, 0⟩, ⟨4, 1, 0⟩, ⟨-1, 0, 0⟩] []).world
      = [] ++ ([⟨4, 1, 0⟩, ⟨4, 1, 0⟩, ⟨-1, 0, 0⟩] : List tvhpoll_event).map
          (fun e => EpollCall.ctl 9 stdConsts.EPOLL_CTL_DEL e.fd none) ∧
    (tvhpoll_rem_kqueue stdConsts (kqueueScript (fun _ => -1) (fun _ _ => kevent_del_of stdConsts ⟨0, 0, 0⟩))
        (tvhpoll_fresh (fun _ => kevent_del_of stdConsts ⟨0, 0, 0⟩) 9)
        [⟨4, 1, 0⟩, ⟨4, 1, 0⟩, ⟨-1, 0, 0⟩] []).world
      = [] ++ [KqueueCall.kevent 9
          (some (([⟨4, 1, 0⟩, ⟨4, 1, 0⟩, ⟨-1, 0, 0⟩] : List tvhpoll_event).map
            (fun e => EV_SET stdConsts e.fd 0 stdConsts.EV_DELETE 0 0 0)))
          3 none 0 none] :=
  ⟨(rem_always_succeeds stdConsts).1 _ _ _ _ _,
   (rem_always_succeeds stdConsts).2.2.1 _ _ _ _ [],
   (rem_always_succeeds stdConsts).2.2.2 _ _ _ _ [] (by decide)⟩

/-- C4 fails on the kqueue path: `tvhpoll_wait` with `ms = 0` passes a `NULL`
timeout to `kevent` (block indefinitely, not a zero-duration timespec), and with
`ms = -1` it passes the timespec `{0 s, -1000000 ns}` (not `NULL`); the epoll
path passes `0` and `-1` through and follows the convention. -/
theorem kqueue_timeout_convention_fails :
    kqueue_timeout 0 = none ∧
    kqueue_timeout (-1) = some { tv_sec := 0, tv_nsec := -1000000 } ∧
    (tvhpoll_wait_kqueue stdConsts (kqueueScript (fun _ => 0) (fun _ _ => kevent_del_of stdConsts ⟨0, 0, 0⟩))
        (tvhpoll_fresh (fun _ => kevent_del_of stdConsts ⟨0, 0, 0⟩) 9) staleSlots 1 0 []).world
      = [KqueueCall.kevent 9 none 0 (some 1) 1 none] ∧
    (tvhpoll_wait_kqueue stdConsts (kqueueScript (fun _ => 0) (fun _ _ => kevent_del_of stdConsts ⟨0, 0, 0⟩))
        (tvhpoll_fresh (fun _ => kevent_del_of stdConsts ⟨0, 0, 0⟩) 9) staleSlots 1 (-1) []).world
      = [KqueueCall.kevent 9 none 0 (some 1) 1 (some { tv_sec := 0, tv_nsec := -1000000 })] ∧
    (tvhpoll_wait_epoll stdConsts (epollScript (fun _ => 0) (fun _ _ => ⟨0, 0⟩))
        (tvhpoll_fresh (fun _ => ⟨0, 0⟩) 9) staleSlots 1 0 []).world
      = [EpollCall.wait 9 1 1 0] ∧
    (tvhpoll_wait_epoll stdConsts (epollScript (fun _ => 0) (fun _ _ => ⟨0, 0⟩))
        (tvhpoll_fresh (fun _ => ⟨0, 0⟩) 9) staleSlots 1 (-1) []).world
      = [EpollCall.wait 9 1 1 (-1)] := by
  refine ⟨by decide, by decide, by decide, by decide, by decide, by decide⟩

/-- C5: for every positive `ms` (so for every positive C `int`), the kqueue path
passes the timespec with `tv_sec = ms / 1000` and `tv_nsec = (ms mod 1000) *
1000000`; C's truncating `/` and `%` agree with the mathematical ones here;
`0 ≤ tv_nsec < 10^9`; `tv_sec * 10^9 + tv_nsec = ms * 10^6`; the `long long`
product does not overflow; and the epoll path passes `ms` unchanged. -/
theorem timeout_translation_exact (ms : Int) (h0 : 0 < ms) :
    kqueue_timeout ms = some { tv_sec := ms / 1000, tv_nsec := ms % 1000 * 1000000 } ∧
    ms.tdiv 1000 = ms / 1000 ∧ ms.tmod 1000 = ms % 1000 ∧
    0 ≤ ms % 1000 * 1000000 ∧ ms % 1000 * 1000000 < 1000000000 ∧
    ms / 1000 * 1000000000 + ms % 1000 * 1000000 = ms * 1000000 ∧
    -9223372036854775808 ≤ ms.tmod 1000 * 1000000 ∧ ms.tmod 1000 * 1000000 ≤ 9223372036854775807 ∧
    wrapS 64 (ms.tmod 1000 * 1000000) = ms.tmod 1000 * 1000000 ∧
    epoll_timeout ms = ms ∧
    (∀ (c : Consts) (res : List KqueueCall → Int) (recs : List KqueueCall → Nat → kevent_t)
        (tp : tvhpoll kevent_t) (evs : Nat → tvhpoll_event) (num : Nat) (log : List KqueueCall),
      (tvhpoll_wait_kqueue c (kqueueScript res recs) tp evs num ms log).world
        = log ++ [KqueueCall.kevent tp.fd none 0 (some (tvhpoll_alloc c (EV_SIZE_kqueue c) tp (size_to_int num)).ev.cap)
            (size_to_int num) (some { tv_sec := ms / 1000, tv_nsec := ms % 1000 * 1000000 })]) ∧
    (∀ (c : Consts) (res : List EpollCall → Int) (recs : List EpollCall → Nat → epoll_event)
        (tp : tvhpoll epoll_event) (evs : Nat → tvhpoll_event) (num : Nat) (log : List EpollCall),
      (tvhpoll_wait_epoll c (epollScript res recs) tp evs num ms log).world
        = log ++ [EpollCall.wait tp.fd (tvhpoll_alloc c (EV_SIZE_epoll c) tp (size_to_int num)).ev.cap
            (size_to_int num) ms]) := by
  have hd : ms.tdiv 1000 = ms / 1000 := Int.tdiv_eq_ediv (le_of_lt h0) (by decide)
  have hm : ms.tmod 1000 = ms % 1000 := Int.tmod_eq_emod (le_of_lt h0) (by decide)
  have hw : wrapS 64 (ms % 1000 * 1000000) = ms % 1000 * 1000000 := by
    unfold wrapS
    norm_num
    omega
  have hk : kqueue_timeout ms = some { tv_sec := ms / 1000, tv_nsec := ms % 1000 * 1000000 } := by
    unfold kqueue_timeout
    simp only []
    rw [if_pos (ne_of_gt h0), hd, hm, hw]
  refine ⟨hk, hd, hm, by omega, by omega, by omega, by rw [hm]; omega, by rw [hm]; omega,
    by rw [hm]; exact hw, rfl, ?_, ?_⟩
  · intro c res recs tp evs num log
    rw [wait_kqueue_script, hk]
  · intro c res recs tp evs num log
    rw [wait_epoll_script]
    rfl

/-- C5 at `ms = 1500`: kqueue gets `{1 s, 500000000 ns}`, epoll gets `1500`. -/
theorem timeout_translation_exact_witness :
    kqueue_timeout 1500 = some { tv_sec := 1, tv_nsec := 500000000 } ∧ epoll_timeout 1500 = 1500 :=
  ⟨(timeout_translation_exact 1500 (by decide)).1,
   (timeout_translation_exact 1500 (by decide)).2.2.2.2.2.2.2.2.2.1⟩

/-- C6: on epoll, for every event sequence and every pattern of kernel results
(`res`, a function of the calls made so far), `tvhpoll_add` returns 0 exactly
when every registration call succeeded, and otherwise -1; when element `k` is
the first whose registration fails, the calls issued are exactly the
`EPOLL_CTL_ADD` calls for elements `0..k` (none after `k`, no deregistration of
the earlier ones); for the empty sequence it returns 0 and calls nothing. -/
theorem add_epoll_first_failure (c : Consts) (res : List EpollCall → Int)
    (recs : List EpollCall → Nat → epoll_event) (tp : tvhpoll epoll_event)
    (evs : List tvhpoll_event) (log : List EpollCall) :
    ((tvhpoll_add_epoll c (epollScript res recs) tp evs log).ret = 0 ↔
      ∀ i, i < evs.length → res (log ++ addCalls c tp.fd (evs.take (i + 1))) = 0) ∧
    ((tvhpoll_add_epoll c (epollScript res recs) tp evs log).ret = 0 ∨
      (tvhpoll_add_epoll c (epollScript res recs) tp evs log).ret = -1) ∧
    ((tvhpoll_add_epoll c (epollScript res recs) tp evs log).ret = 0 →
      (tvhpoll_add_epoll c (epollScript res recs) tp evs log).world = log ++ addCalls c tp.fd evs) ∧
    (∀ k, k < evs.length →
      (∀ i, i < k → res (log ++ addCalls c tp.fd (evs.take (i + 1))) = 0) →
      res (log ++ addCalls c tp.fd (evs.take (k + 1))) ≠ 0 →
      (tvhpoll_add_epoll c (epollScript res recs) tp evs log).ret = -1 ∧
      (tvhpoll_add_epoll c (epollScript res recs) tp evs log).world
        = log ++ addCalls c tp.fd (evs.take (k + 1))) ∧
    (evs = [] →
      (tvhpoll_add_epoll c (epollScript res recs) tp evs log).ret = 0 ∧
      (tvhpoll_add_epoll c (epollScript res recs) tp evs log).world = log) := by
  have hfail : ∀ k, k < evs.length →
      (∀ i, i < k → res (log ++ addCalls c tp.fd (evs.take (i + 1))) = 0) →
      res (log ++ addCalls c tp.fd (evs.take (k + 1))) ≠ 0 →
      (tvhpoll_add_epoll c (epollScript res recs) tp evs log).ret = -1 ∧
      (tvhpoll_add_epoll c (epollScript res recs) tp evs log).world
        = log ++ addCalls c tp.fd (evs.take (k + 1)) := by
    intro k hk hok hbad
    unfold tvhpoll_add_epoll
    simp only []
    rw [add_loop_script_fail c res recs tp evs log k hk hok hbad]
    exact ⟨rfl, rfl⟩
  have hok : (∀ i, i < evs.length → res (log ++ addCalls c tp.fd (evs.take (i + 1))) = 0) →
      (tvhpoll_add_epoll c (epollScript res recs) tp evs log).ret = 0 ∧
      (tvhpoll_add_epoll c (epollScript res recs) tp evs log).world = log ++ addCalls c tp.fd evs := by
    intro h
    unfold tvhpoll_add_epoll
    simp only []
    rw [add_loop_script_ok c res recs tp evs log h]
    exact ⟨rfl, rfl⟩
  have hiff : (tvhpoll_add_epoll c (epollScript res recs) tp evs log).ret = 0 ↔
      ∀ i, i < evs.length → res (log ++ addCalls c tp.fd (evs.take (i + 1))) = 0 := by
    constructor
    · intro hret
      by_contra hne
      have hex : ∃ k, k < evs.length ∧ res (log ++ addCalls c tp.fd (evs.take (k + 1))) ≠ 0 := by
        push_neg at hne
        exact hne
      have hmin : ∀ m, m < Nat.find hex →
          ¬ (m < evs.length ∧ res (log ++ addCalls c tp.fd (evs.take (m + 1))) ≠ 0) :=
        fun m hm => Nat.find_min hex hm
      obtain ⟨hk, hbad⟩ := Nat.find_spec hex
      have := (hfail (Nat.find hex) hk (fun i hi => by
        by_contra hi0
        exact hmin i hi ⟨by omega, hi0⟩) hbad).1
      rw [this] at hret
      exact absurd hret (by decide)
    · intro h
      exact (hok h).1
  refine ⟨hiff, ?_, ?_, hfail, ?_⟩
  · exact add_loop_ret _ c _ tp evs log
  · intro hret
    exact (hok (hiff.mp hret)).2
  · intro hnil
    subst hnil
    exact ⟨rfl, rfl⟩

/-- C6 with a kernel that rejects the second registration: adding three events
returns -1 after exactly two `EPOLL_CTL_ADD` calls. -/
theorem add_epoll_first_failure_witness :
    (tvhpoll_add_epoll stdConsts (epollScript failSecondCall (fun _ _ => ⟨0, 0⟩))
        (tvhpoll_fresh (fun _ => ⟨0, 0⟩) 9) [⟨4, 1, 10⟩, ⟨5, 2, 11⟩, ⟨6, 1, 12⟩] []).ret = -1 ∧
    (tvhpoll_add_epoll stdConsts (epollScript failSecondCall (fun _ _ => ⟨0, 0⟩))
        (tvhpoll_fresh (fun _ => ⟨0, 0⟩) 9) [⟨4, 1, 10⟩, ⟨5, 2, 11⟩, ⟨6, 1, 12⟩] []).world
      = [] ++ addCalls stdConsts 9
          (([⟨4, 1, 10⟩, ⟨5, 2, 11⟩, ⟨6, 1, 12⟩] : List tvhpoll_event).take (1 + 1)) :=
  (add_epoll_first_failure stdConsts failSecondCall (fun _ _ => ⟨0, 0⟩)
    (tvhpoll_fresh (fun _ => ⟨0, 0⟩) 9) [⟨4, 1, 10⟩, ⟨5, 2, 11⟩, ⟨6, 1, 12⟩] []).2.2.2.1 1
    (by decide) (by decide) (by decide)

/-- C7: on both backends, for every kernel and every return value `r` of the
blocking call with buffer contents `recs`, `tvhpoll_wait` returns `r`; for
`r ≤ 0` (timeout or error) the output array is untouched; for `r > 0` slot `i`
with `i < r` is the translation of record `i` and every slot at index `≥ r` is
unchanged; and when `r ≤ num` the result is at most `num`. -/
theorem wait_result (c : Consts) :
    (∀ (σ : Type) (K : EpollKernel σ) (tp : tvhpoll epoll_event) (evs : Nat → tvhpoll_event)
        (num : Nat) (ms : Int) (s : σ) (r : Int) (recs : Nat → epoll_event),
      (blocking_call_epoll c K tp num ms s).1 = (r, recs) →
      (tvhpoll_wait_epoll c K tp evs num ms s).ret = r ∧
      (r ≤ 0 → (tvhpoll_wait_epoll c K tp evs num ms s).evs = evs) ∧
      (∀ i : Nat, (i : Int) < r →
        (tvhpoll_wait_epoll c K tp evs num ms s).evs i = tvhpoll_event_of_epoll c (recs i) (evs i)) ∧
      (∀ i : Nat, r ≤ (i : Int) → (tvhpoll_wait_epoll c K tp evs num ms s).evs i = evs i) ∧
      (r ≤ (num : Int) → (tvhpoll_wait_epoll c K tp evs num ms s).ret ≤ (num : Int))) ∧
    (∀ (σ : Type) (K : KqueueKernel σ) (tp : tvhpoll kevent_t) (evs : Nat → tvhpoll_event)
        (num : Nat) (ms : Int) (s : σ) (r : Int) (recs : Nat → kevent_t),
      (blocking_call_kqueue c K tp num ms s).1 = (r, recs) →
      (tvhpoll_wait_kqueue c K tp evs num ms s).ret = r ∧
      (r ≤ 0 → (tvhpoll_wait_kqueue c K tp evs num ms s).evs = evs) ∧
      (∀ i : Nat, (i : Int) < r →
        (tvhpoll_wait_kqueue c K tp evs num ms s).evs i = tvhpoll_event_of_kevent c (recs i) (evs i)) ∧
      (∀ i : Nat, r ≤ (i : Int) → (tvhpoll_wait_kqueue c K tp evs num ms s).evs i = evs i) ∧
      (r ≤ (num : Int) → (tvhpoll_wait_kqueue c K tp evs num ms s).ret ≤ (num : Int))) := by
  constructor
  · intro σ K tp evs num ms s r recs hcall
    have h1 : (tvhpoll_wait_epoll c K tp evs num ms s).ret = r := congrArg Prod.fst hcall
    have h2 : (tvhpoll_wait_epoll c K tp evs num ms s).evs
        = wait_loop (tvhpoll_event_of_epoll c) recs r evs := by
      have e1 := congrArg Prod.fst hcall
      have e2 := congrArg Prod.snd hcall
      simp only [blocking_call_epoll] at e1 e2
      simp only [tvhpoll_wait_epoll, epoll_timeout, e1, e2]
    refine ⟨h1, ?_, ?_, ?_, ?_⟩
    · intro hr
      rw [h2, wait_loop_nonpos _ _ _ _ hr]
    · intro i hi
      rw [h2, wait_loop_apply, if_pos hi]
    · intro i hi
      rw [h2, wait_loop_apply, if_neg (by omega)]
    · intro hr
      rw [h1]
      exact hr
  · intro σ K tp evs num ms s r recs hcall
    have h1 : (tvhpoll_wait_kqueue c K tp evs num ms s).ret = r := congrArg Prod.fst hcall
    have h2 : (tvhpoll_wait_kqueue c K tp evs num ms s).evs
        = wait_loop (tvhpoll_event_of_kevent c) recs r evs := by
      have e1 := congrArg Prod.fst hcall
      have e2 := congrArg Prod.snd hcall
      simp only [blocking_call_kqueue] at e1 e2
      simp only [tvhpoll_wait_kqueue, e1, e2]
    refine ⟨h1, ?_, ?_, ?_, ?_⟩
    · intro hr
      rw [h2, wait_loop_nonpos _ _ _ _ hr]
    · intro i hi
      rw [h2, wait_loop_apply, if_pos hi]
    · intro i hi
      rw [h2, wait_loop_apply, if_neg (by omega)]
    · intro hr
      rw [h1]
      exact hr

/-- C7 with an epoll kernel that reports one ready record: `tvhpoll_wait` with
capacity 1 returns 1, slot 0 is the translation of that record, slot 1 is
unchanged. -/
theorem wait_result_witness :
    (tvhpoll_wait_epoll stdConsts (oneReadyEpoll ⟨1, 7⟩) (tvhpoll_fresh (fun _ => ⟨0, 0⟩) 9)
        staleSlots 1 1000 []).ret = 1 ∧
    (tvhpoll_wait_epoll stdConsts (oneReadyEpoll ⟨1, 7⟩) (tvhpoll_fresh (fun _ => ⟨0, 0⟩) 9)
        staleSlots 1 1000 []).evs 0 = tvhpoll_event_of_epoll stdConsts ⟨1, 7⟩ (staleSlots 0) ∧
    (tvhpoll_wait_epoll stdConsts (oneReadyEpoll ⟨1, 7⟩) (tvhpoll_fresh (fun _ => ⟨0, 0⟩) 9)
        staleSlots 1 1000 []).evs 1 = staleSlots 1 ∧
    (tvhpoll_wait_epoll stdConsts (oneReadyEpoll ⟨1, 7⟩) (tvhpoll_fresh (fun _ => ⟨0, 0⟩) 9)
        staleSlots 1 1000 []).ret ≤ ((1 : Nat) : Int) :=
  ⟨((wait_result stdConsts).1 _ (oneReadyEpoll ⟨1, 7⟩) (tvhpoll_fresh (fun _ => ⟨0, 0⟩) 9)
      staleSlots 1 1000 [] 1 (fun _ => ⟨1, 7⟩) rfl).1,
   ((wait_result stdConsts).1 _ (oneReadyEpoll ⟨1, 7⟩) (tvhpoll_fresh (fun _ => ⟨0, 0⟩) 9)
      staleSlots 1 1000 [] 1 (fun _ => ⟨1, 7⟩) rfl).2.2.1 0 (by decide),
   ((wait_result stdConsts).1 _ (oneReadyEpoll ⟨1, 7⟩) (tvhpoll_fresh (fun _ => ⟨0, 0⟩) 9)
      staleSlots 1 1000 [] 1 (fun _ => ⟨1, 7⟩) rfl).2.2.2.1 1 (by decide),
   ((wait_result stdConsts).1 _ (oneReadyEpoll ⟨1, 7⟩) (tvhpoll_fresh (fun _ => ⟨0, 0⟩) 9)
      staleSlots 1 1000 [] 1 (fun _ => ⟨1, 7⟩) rfl).2.2.2.2 (by decide)⟩

/-- C8, as the claim states it, fails on a target whose `size_t` is 32 bits wide:
`tvhpoll_create(357913942)` computes the byte count `357913942 * 12` modulo
`2 ^ 32`, which is 8, so the block has room for no record while `nev` is
357913942; the following `tvhpoll_wait` with capacity 2 does not reallocate
(`2 ≤ nev`) and hands the kernel that block together with the count 2. -/
theorem buffer_capacity_size32_counterexample :
    (create_then_wait_epoll ilp32Consts (epollScript createThenIdle (fun _ _ => ⟨0, 0⟩))
        (fun _ => ⟨0, 0⟩) 357913942 staleSlots 2 0 []).map (fun o => (o.tp.nev, o.world))
      = some (357913942, [EpollCall.create 357913942, EpollCall.wait 3 0 2 0]) ∧
    wrapU ilp32Consts.sizeBits (357913942 * (EV_SIZE_epoll ilp32Consts : Int)) = 8 ∧
    ¬ ((2 : Int) ≤ 0) := by
  refine ⟨by decide, by decide, by decide⟩

/-- C8 (amended): `tvhpoll_alloc` sets the recorded capacity `nev` to
`max (old nev) n`, so never below the old one; a created poller has capacity
`max 0 n`; add, remove and wait on either backend leave `nev` at least as large
as before; after wait `nev ≥ num` when `num` fits `int`.  The block itself is
as large as recorded only when the sizing succeeds: if `EV_SIZE > 0`, the block
had room for `nev` records before, and, whenever the call grows it, the byte
count `n * EV_SIZE` fits `size_t` and `realloc` succeeds, then after
`tvhpoll_alloc` the block has room for `nev` records and for `n`; under those
conditions the blocking call of wait is handed a block of at least `num`
records together with the count `num`. -/
theorem capacity_never_shrinks (c : Consts) :
    (∀ (ρ : Type) (sz : Nat) (tp : tvhpoll ρ) (n : Int),
      (tvhpoll_alloc c sz tp n).nev = max tp.nev n ∧ tp.nev ≤ (tvhpoll_alloc c sz tp n).nev) ∧
    (∀ (σ : Type) (K : EpollKernel σ) (junk : Nat → epoll_event) (n : Nat) (s : σ)
        (tp : tvhpoll epoll_event),
      (tvhpoll_create_epoll c K junk n s).1 = some tp → tp.nev = max 0 (size_to_int n)) ∧
    (∀ (σ : Type) (K : KqueueKernel σ) (junk : Nat → kevent_t) (n : Nat) (s : σ)
        (tp : tvhpoll kevent_t),
      (tvhpoll_create_kqueue c K junk n s).1 = some tp → tp.nev = max 0 (size_to_int n)) ∧
    (∀ (σ : Type) (K : EpollKernel σ) (tp : tvhpoll epoll_event) (evs : List tvhpoll_event) (s : σ),
      tp.nev ≤ (tvhpoll_add_epoll c K tp evs s).tp.nev ∧
      tp.nev ≤ (tvhpoll_rem_epoll c K tp evs s).tp.nev) ∧
    (∀ (σ : Type) (K : KqueueKernel σ) (tp : tvhpoll kevent_t) (evs : List tvhpoll_event) (s : σ),
      tp.nev ≤ (tvhpoll_add_kqueue c K tp evs s).tp.nev ∧
      tp.nev ≤ (tvhpoll_rem_kqueue c K tp evs s).tp.nev) ∧
    (∀ (σ : Type) (K : EpollKernel σ) (tp : tvhpoll epoll_event) (evs : Nat → tvhpoll_event)
        (num : Nat) (ms : Int) (s : σ),
      tp.nev ≤ (tvhpoll_wait_epoll c K tp evs num ms s).tp.nev ∧
      ((num : Int) ≤ INT_MAX → (num : Int) ≤ (tvhpoll_wait_epoll c K tp evs num ms s).tp.nev)) ∧
    (∀ (σ : Type) (K : KqueueKernel σ) (tp : tvhpoll kevent_t) (evs : Nat → tvhpoll_event)
        (num : Nat) (ms : Int) (s : σ),
      tp.nev ≤ (tvhpoll_wait_kqueue c K tp evs num ms s).tp.nev ∧
      ((num : Int) ≤ INT_MAX → (num : Int) ≤ (tvhpoll_wait_kqueue c K tp evs num ms s).tp.nev)) ∧
    (∀ (ρ : Type) (sz : Nat) (tp : tvhpoll ρ) (n : Int),
      0 < sz → tp.nev ≤ tp.ev.cap →
      (tp.nev < n → 0 ≤ n ∧ n * sz < 2 ^ c.sizeBits ∧ c.realloc_ok (n * sz).toNat = true) →
      (tvhpoll_alloc c sz tp n).nev ≤ (tvhpoll_alloc c sz tp n).ev.cap ∧
      n ≤ (tvhpoll_alloc c sz tp n).ev.cap) ∧
    (∀ (res : List EpollCall → Int) (recs : List EpollCall → Nat → epoll_event)
        (tp : tvhpoll epoll_event) (evs : Nat → tvhpoll_event) (num : Nat) (ms : Int)
        (log : List EpollCall),
      (num : Int) ≤ INT_MAX → 0 < EV_SIZE_epoll c → tp.nev ≤ tp.ev.cap →
      (tp.nev < (num : Int) → (num : Int) * EV_SIZE_epoll c < 2 ^ c.sizeBits ∧
        c.realloc_ok ((num : Int) * EV_SIZE_epoll c).toNat = true) →
      ∃ cap : Int, (num : Int) ≤ cap ∧
        (tvhpoll_wait_epoll c (epollScript res recs) tp evs num ms log).world
          = log ++ [EpollCall.wait tp.fd cap num ms]) ∧
    (∀ (res : List KqueueCall → Int) (recs : List KqueueCall → Nat → kevent_t)
        (tp : tvhpoll kevent_t) (evs : Nat → tvhpoll_event) (num : Nat) (ms : Int)
        (log : List KqueueCall),
      (num : Int) ≤ INT_MAX → 0 < EV_SIZE_kqueue c → tp.nev ≤ tp.ev.cap →
      (tp.nev < (num : Int) → (num : Int) * EV_SIZE_kqueue c < 2 ^ c.sizeBits ∧
        c.realloc_ok ((num : Int) * EV_SIZE_kqueue c).toNat = true) →
      ∃ cap : Int, (num : Int) ≤ cap ∧
        (tvhpoll_wait_kqueue c (kqueueScript res recs) tp evs num ms log).world
          = log ++ [KqueueCall.kevent tp.fd none 0 (some cap) num (kqueue_timeout ms)]) := by
  have hmono : ∀ (ρ : Type) (sz : Nat) (tp : tvhpoll ρ) (n : Int),
      tp.nev ≤ (tvhpoll_alloc c sz tp n).nev := by
    intro ρ sz tp n
    rw [tvhpoll_alloc_nev]
    omega
  refine ⟨?_, ?_, ?_, ?_, ?_, ?_, ?_, ?_, ?_, ?_⟩
  · intro ρ sz tp n
    exact ⟨tvhpoll_alloc_nev c sz tp n, hmono ρ sz tp n⟩
  · intro σ K junk n s tp h
    unfold tvhpoll_create_epoll at h
    simp only [] at h
    split at h
    · simp at h
    · simp only [Option.some.injEq] at h
      rw [← h, tvhpoll_alloc_nev]
      rfl
  · intro σ K junk n s tp h
    unfold tvhpoll_create_kqueue at h
    simp only [] at h
    split at h
    · simp at h
    · simp only [Option.some.injEq] at h
      rw [← h, tvhpoll_alloc_nev]
      rfl
  · intro σ K tp evs s
    refine ⟨le_refl _, ?_⟩
    rw [rem_epoll_tp_nev]
    exact hmono _ _ tp _
  · intro σ K tp evs s
    rw [add_kqueue_tp_nev, rem_kqueue_tp_nev]
    exact ⟨hmono _ _ tp _, hmono _ _ tp _⟩
  · intro σ K tp evs num ms s
    rw [wait_epoll_tp_nev]
    refine ⟨hmono _ _ tp _, fun h => ?_⟩
    rw [tvhpoll_alloc_nev, size_to_int_eq _ h]
    omega
  · intro σ K tp evs num ms s
    rw [wait_kqueue_tp_nev]
    refine ⟨hmono _ _ tp _, fun h => ?_⟩
    rw [tvhpoll_alloc_nev, size_to_int_eq _ h]
    omega
  · intro ρ sz tp n hsz hinv hgrow
    exact tvhpoll_alloc_cap_ge c sz tp n hsz hinv hgrow
  · intro res recs tp evs num ms log h hsz hinv hgrow
    refine ⟨(tvhpoll_alloc c (EV_SIZE_epoll c) tp (num : Int)).ev.cap, ?_, ?_⟩
    · exact (tvhpoll_alloc_cap_ge c _ tp _ hsz hinv
        (fun hlt => ⟨Int.ofNat_nonneg num, hgrow hlt⟩)).2
    · rw [wait_epoll_script, size_to_int_eq _ h]
      rfl
  · intro res recs tp evs num ms log h hsz hinv hgrow
    refine ⟨(tvhpoll_alloc c (EV_SIZE_kqueue c) tp (num : Int)).ev.cap, ?_, ?_⟩
    · exact (tvhpoll_alloc_cap_ge c _ tp _ hsz hinv
        (fun hlt => ⟨Int.ofNat_nonneg num, hgrow hlt⟩)).2
    · rw [wait_kqueue_script, size_to_int_eq _ h]

/-- C8 (amended) on a poller of recorded capacity 2 whose block holds 2 records,
with 64-bit `size_t` and a `realloc` that succeeds: a wait of capacity 4 hands
the kernel a block of at least 4 records, and `nev` ends at least 4. -/
theorem capacity_never_shrinks_witness :
    (∃ cap : Int, ((4 : Nat) : Int) ≤ cap ∧
      (tvhpoll_wait_epoll stdConsts (epollScript (fun _ => 0) (fun _ _ => ⟨0, 0⟩))
          { fd := 9, ev := { cap := 2, cell := fun _ => ⟨0, 0⟩ }, nev := 2 } staleSlots 4 1000 []).world
        = [] ++ [EpollCall.wait 9 cap ((4 : Nat) : Int) 1000]) ∧
    ((4 : Nat) : Int) ≤ (tvhpoll_wait_epoll stdConsts (epollScript (fun _ => 0) (fun _ _ => ⟨0, 0⟩))
        { fd := 9, ev := { cap := 2, cell := fun _ => ⟨0, 0⟩ }, nev := 2 } staleSlots 4 1000 []).tp.nev :=
  ⟨(capacity_never_shrinks stdConsts).2.2.2.2.2.2.2.2.1 _ _
      { fd := 9, ev := { cap := 2, cell := fun _ => ⟨0, 0⟩ }, nev := 2 } _ 4 1000 []
      (by decide) (by decide) (by decide) (fun _ => ⟨by decide, rfl⟩),
   ((capacity_never_shrinks stdConsts).2.2.2.2.2.1 _ (epollScript (fun _ => 0) (fun _ _ => ⟨0, 0⟩))
      { fd := 9, ev := { cap := 2, cell := fun _ => ⟨0, 0⟩ }, nev := 2 } staleSlots 4 1000 []).2
      (by decide)⟩

/-- C9, as the claim states it, fails on epoll: an event registered with
descriptor 5 and tag 7 becomes ready, and `tvhpoll_wait` reports it in a slot
whose descriptor field still holds the 99 it held before the call. -/
theorem descriptor_epoll_counterexample :
    (tvhpoll_wait_epoll stdConsts
        (oneReadyEpoll (epoll_event_of stdConsts { fd := 5, events := 1, data_u64 := 7 }))
        (tvhpoll_fresh (fun _ => { events := 0, data_u64 := 0 }) 9)
        staleSlots 1 1000 []).ret = 1 ∧
    ((tvhpoll_wait_epoll stdConsts
        (oneReadyEpoll (epoll_event_of stdConsts { fd := 5, events := 1, data_u64 := 7 }))
        (tvhpoll_fresh (fun _ => { events := 0, data_u64 := 0 }) 9)
        staleSlots 1 1000 []).evs 0) = { fd := 99, events := 1, data_u64 := 7 } ∧
    ((tvhpoll_wait_epoll stdConsts
        (oneReadyEpoll (epoll_event_of stdConsts { fd := 5, events := 1, data_u64 := 7 }))
        (tvhpoll_fresh (fun _ => { events := 0, data_u64 := 0 }) 9)
        staleSlots 1 1000 []).evs 0).fd ≠ 5 := by
  refine ⟨by decide, by decide, by decide⟩

/-- C9 (amended): on kqueue, for every descriptor `D` in the range of `int` (and
pointers of at least 32 bits), every ready record whose `ident` is the one
`tvhpoll_add` registered for `D` is reported by `tvhpoll_wait` with descriptor
`D`, whatever the slot held; on epoll `tvhpoll_wait` does not write the
descriptor field: every slot keeps the descriptor it held before the call. -/
theorem descriptor_passthrough (c : Consts) :
    (∀ (σ : Type) (K : EpollKernel σ) (tp : tvhpoll epoll_event) (evs : Nat → tvhpoll_event)
        (num : Nat) (ms : Int) (s : σ) (i : Nat),
      ((tvhpoll_wait_epoll c K tp evs num ms s).evs i).fd = (evs i).fd) ∧
    (32 ≤ c.ptrBits →
      ∀ (D : Int), -2147483648 ≤ D → D ≤ INT_MAX →
      ∀ (e : tvhpoll_event), e.fd = D →
      ∀ (σ : Type) (K : KqueueKernel σ) (tp : tvhpoll kevent_t) (evs : Nat → tvhpoll_event)
        (num : Nat) (ms : Int) (s : σ) (i : Nat),
      (i : Int) < (tvhpoll_wait_kqueue c K tp evs num ms s).ret →
      ((tvhpoll_wait_kqueue c K tp evs num ms s).tp.ev.cell i).ident = (kevent_of c e).ident →
      ((tvhpoll_wait_kqueue c K tp evs num ms s).evs i).fd = D) := by
  refine ⟨?_, ?_⟩
  · intro σ K tp evs num ms s i
    simp only [tvhpoll_wait_epoll]
    rw [wait_loop_apply]
    split
    · rw [tvhpoll_event_of_epoll_fd]
    · rfl
  · intro hw D h1 h2 e he σ K tp evs num ms s i hi hrec
    simp only [tvhpoll_wait_kqueue] at hi hrec ⊢
    rw [wait_loop_apply, if_pos hi, tvhpoll_event_of_kevent_fd, hrec, kevent_of_ident, he]
    exact fd_roundtrip c.ptrBits hw D h1 h2

/-- C9 (amended) on kqueue: the subscription for descriptor 5 comes back in a
slot that held descriptor 99 and is reported with descriptor 5. -/
theorem descriptor_passthrough_witness :
    ((tvhpoll_wait_kqueue stdConsts
        (oneReadyKqueue (kevent_of stdConsts { fd := 5, events := 1, data_u64 := 7 }))
        (tvhpoll_fresh (fun _ => kevent_of stdConsts { fd := 0, events := 0, data_u64 := 0 }) 9)
        staleSlots 1 1000 []).evs 0).fd = 5 :=
  (descriptor_passthrough stdConsts).2 (by decide) 5 (by decide) (by decide)
    { fd := 5, events := 1, data_u64 := 7 } rfl _ _ _ _ 1 1000 [] 0 (by decide) (by decide)

/-- C10 fails on the code: with the BSD values `EVFILT_READ = -1` and
`EVFILT_WRITE = -2`, `tvhpoll_add` builds for `{Readable, Writable}` the very
record it builds for `{Readable}` (filter `EVFILT_READ`: the filter ids are
or-ed as if they were bits), and `tvhpoll_wait` translates the ready record of
the `{Readable}` subscription (same filter, `fflags = 0`, no `EV_EOF`) to the
empty flag set, because it tests `fflags`, not `filter`. -/
theorem kqueue_flags_roundtrip_fails :
    kevent_of stdConsts { fd := 3, events := stdConsts.TVHPOLL_IN ||| stdConsts.TVHPOLL_OUT, data_u64 := 7 }
      = kevent_of stdConsts { fd := 3, events := stdConsts.TVHPOLL_IN, data_u64 := 7 } ∧
    (kevent_of stdConsts { fd := 3, events := stdConsts.TVHPOLL_IN, data_u64 := 7 })
      = { ident := 3, filter := stdConsts.EVFILT_READ, flags := stdConsts.EV_ADD, fflags := 0,
          data := 0, udata := 7 } ∧
    ((tvhpoll_wait_kqueue stdConsts
        (oneReadyKqueue { ident := 3, filter := stdConsts.EVFILT_READ, flags := stdConsts.EV_ADD,
                          fflags := 0, data := 100, udata := 7 })
        (tvhpoll_fresh (fun _ => kevent_of stdConsts { fd := 0, events := 0, data_u64 := 0 }) 9)
        staleSlots 1 1000 []).evs 0) = { fd := 3, events := 0, data_u64 := 7 } ∧
    (0 : Nat) ≠ stdConsts.TVHPOLL_IN := by
  refine ⟨by decide, by decide, by decide, by decide⟩

end Tvhpoll
